import Mathlib

/-!
Verification development for the crypto crash game server (src/index.js).

The embedding models the JavaScript source faithfully:
  * machine words are `Nat` with explicit `% 2^32` where the source wraps;
  * JavaScript numbers (IEEE doubles) are modelled as exact rationals `ℚ`;
  * the SHA-256 call `crypto.createHash('sha256').update(s).digest('hex')`
    is embedded as an executable SHA-256 over the byte list of `s`;
  * socket handlers become pure functions from state to (result, state).
-/

namespace CrashGame

/-! ## SHA-256 primitive (models node's crypto.createHash('sha256')) -/

/-- Modulus for 32-bit words. -/
def M32 : Nat := 2 ^ 32

/-- Right rotation of a 32-bit word. -/
def rotr (n w : Nat) : Nat := ((w >>> n) ||| (w <<< (32 - n))) % M32

/-- SHA-256 round constants. -/
def K256 : List Nat :=
  [1116352408, 1899447441, 3049323471, 3921009573, 961987163,
   1508970993, 2453635748, 2870763221, 3624381080, 310598401,
   607225278, 1426881987, 1925078388, 2162078206, 2614888103,
   3248222580, 3835390401, 4022224774, 264347078, 604807628,
   770255983, 1249150122, 1555081692, 1996064986, 2554220882,
   2821834349, 2952996808, 3210313671, 3336571891, 3584528711,
   113926993, 338241895, 666307205, 773529912, 1294757372,
   1396182291, 1695183700, 1986661051, 2177026350, 2456956037,
   2730485921, 2820302411, 3259730800, 3345764771, 3516065817,
   3600352804, 4094571909, 275423344, 430227734, 506948616,
   659060556, 883997877, 958139571, 1322822218, 1537002063,
   1747873779, 1955562222, 2024104815, 2227730452, 2361852424,
   2428436474, 2756734187, 3204031479, 3329325298]

/-- SHA-256 initial hash words. -/
def IV256 : List Nat :=
  [1779033703, 3144134277, 1013904242,
   2773480762, 1359893119, 2600822924,
   528734635, 1541459225]

/-- Lower-case sigma-0 of the message schedule. -/
def ssig0 (w : Nat) : Nat := (rotr 7 w) ^^^ (rotr 18 w) ^^^ (w >>> 3)

/-- Lower-case sigma-1 of the message schedule. -/
def ssig1 (w : Nat) : Nat := (rotr 17 w) ^^^ (rotr 19 w) ^^^ (w >>> 10)

/-- Upper-case sigma-0 of the compression function. -/
def bsig0 (w : Nat) : Nat := (rotr 2 w) ^^^ (rotr 13 w) ^^^ (rotr 22 w)

/-- Upper-case sigma-1 of the compression function. -/
def bsig1 (w : Nat) : Nat := (rotr 6 w) ^^^ (rotr 11 w) ^^^ (rotr 25 w)

/-- Choice function; the complement of a 32-bit word is xor with `0xffffffff`. -/
def chWord (x y z : Nat) : Nat := (x &&& y) ^^^ ((x ^^^ 0xffffffff) &&& z)

/-- Majority function. -/
def majWord (x y z : Nat) : Nat := (x &&& y) ^^^ (x &&& z) ^^^ (y &&& z)

/-- Big-endian encoding of the 64-bit message bit length. -/
def lenBytes64 (bitLen : Nat) : List Nat :=
  [bitLen / 2 ^ 56 % 256, bitLen / 2 ^ 48 % 256, bitLen / 2 ^ 40 % 256,
   bitLen / 2 ^ 32 % 256, bitLen / 2 ^ 24 % 256, bitLen / 2 ^ 16 % 256,
   bitLen / 2 ^ 8 % 256, bitLen % 256]

/-- SHA-256 padding: append 0x80, zero bytes, and the 64-bit bit length so the
total length is a multiple of 64 bytes. -/
def shaPad (msg : List Nat) : List Nat :=
  let zeros := (64 - (msg.length + 9) % 64) % 64
  msg ++ [0x80] ++ List.replicate zeros 0 ++ lenBytes64 (8 * msg.length)

/-- Big-endian 32-bit word read at byte offset `i` (out-of-range bytes read 0). -/
def wordAt (bytes : List Nat) (i : Nat) : Nat :=
  bytes.getD i 0 * 0x1000000 + bytes.getD (i + 1) 0 * 0x10000 +
    bytes.getD (i + 2) 0 * 0x100 + bytes.getD (i + 3) 0

/-- The 64-word message schedule of the block starting at byte offset `off`. -/
def schedule (bytes : List Nat) (off : Nat) : List Nat :=
  let w16 := (List.range 16).map (fun j => wordAt bytes (off + 4 * j))
  (List.range 48).foldl
    (fun w _ =>
      let n := w.length
      w ++ [(ssig1 (w.getD (n - 2) 0) + w.getD (n - 7) 0 +
             ssig0 (w.getD (n - 15) 0) + w.getD (n - 16) 0) % M32])
    w16

/-- Working registers of the compression loop. -/
structure Regs where
  a : Nat
  b : Nat
  c : Nat
  d : Nat
  e : Nat
  f : Nat
  g : Nat
  h : Nat

/-- One step of the SHA-256 compression loop. -/
def compressStep (w : List Nat) (r : Regs) (i : Nat) : Regs :=
  let t1 := (r.h + bsig1 r.e + chWord r.e r.f r.g + K256.getD i 0 + w.getD i 0) % M32
  let t2 := (bsig0 r.a + majWord r.a r.b r.c) % M32
  ⟨(t1 + t2) % M32, r.a, r.b, r.c, (r.d + t1) % M32, r.e, r.f, r.g⟩

/-- Compress one block (given by its message schedule `w`) into the hash words. -/
def compress (hs w : List Nat) : List Nat :=
  let r0 : Regs := ⟨hs.getD 0 0, hs.getD 1 0, hs.getD 2 0, hs.getD 3 0,
                    hs.getD 4 0, hs.getD 5 0, hs.getD 6 0, hs.getD 7 0⟩
  let r := (List.range 64).foldl (compressStep w) r0
  [(hs.getD 0 0 + r.a) % M32, (hs.getD 1 0 + r.b) % M32,
   (hs.getD 2 0 + r.c) % M32, (hs.getD 3 0 + r.d) % M32,
   (hs.getD 4 0 + r.e) % M32, (hs.getD 5 0 + r.f) % M32,
   (hs.getD 6 0 + r.g) % M32, (hs.getD 7 0 + r.h) % M32]

/-- SHA-256 of a byte list, as the final eight 32-bit hash words. -/
def sha256Words (msg : List Nat) : List Nat :=
  let p := shaPad msg
  (List.range (p.length / 64)).foldl (fun hs i => compress hs (schedule p (64 * i))) IV256

/-- Big-endian bytes of a 32-bit word. -/
def wordBytes (w : Nat) : List Nat :=
  [w / 0x1000000 % 256, w / 0x10000 % 256, w / 0x100 % 256, w % 256]

/-- SHA-256 digest as a list of 32 bytes. -/
def sha256Bytes (msg : List Nat) : List Nat :=
  (sha256Words msg).flatMap wordBytes

/-- Lower-case hex character of a nibble, as produced by digest('hex'). -/
def hexChar (n : Nat) : Char :=
  if n < 10 then Char.ofNat (48 + n) else Char.ofNat (87 + n)

/-- Two hex characters of a byte. -/
def byteHex (b : Nat) : List Char := [hexChar (b / 16), hexChar (b % 16)]

/-- Hexadecimal digest of a message, as in digest('hex'): 64 lower-case
hex characters. -/
def hexDigest (msg : List Nat) : List Char :=
  (sha256Bytes msg).flatMap byteHex

/-- Value of one hex digit, as in JavaScript parseInt with base 16 (digits
0-9, a-f, A-F); other characters contribute 0 (they never occur in a digest). -/
def hexCharVal (c : Char) : Nat :=
  if 48 ≤ c.toNat ∧ c.toNat ≤ 57 then c.toNat - 48
  else if 97 ≤ c.toNat ∧ c.toNat ≤ 102 then c.toNat - 87
  else if 65 ≤ c.toNat ∧ c.toNat ≤ 70 then c.toNat - 55
  else 0

/-- Parse a list of hex characters, most significant first, as parseInt(s, 16)
does on a string of hex digits. -/
def parseHex (cs : List Char) : Nat :=
  cs.foldl (fun acc c => 16 * acc + hexCharVal c) 0

/-! ## Crash point generator (src/index.js, generateProvablyFairCrashPoint) -/

/-- The default game seed of the source (GAME_SEED fallback constant). -/
def GAME_SEED : String := "crypto-crash-game-seed-2024"

/-- The configured ceiling MAX_CRASH = 120. -/
def MAX_CRASH : ℚ := 120

/-- Byte list of a string: code points of its characters. For the ASCII seed
and decimal round strings of this program this coincides with UTF-8, the
encoding used by hash.update. -/
def strBytes (s : String) : List Nat := s.toList.map Char.toNat

/-- Value of parseInt(hash.substring(0, 8), 16): the first eight hex digits of
the SHA-256 digest of seed ++ roundNumber.toString(). -/
def hashPrefix8 (seed : String) (roundNumber : Nat) : Nat :=
  parseHex ((hexDigest (strBytes (seed ++ toString roundNumber))).take 8)

/-- Embedding of generateProvablyFairCrashPoint (src/index.js lines 75-92),
parametrised by the seed (the source reads the module constant GAME_SEED).
randomValue is the 8-hex-digit prefix divided by 2^32; the result is
houseEdge / randomValue capped at MAX_CRASH.  When randomValue is 0 the
JavaScript division yields Infinity and Math.min returns MAX_CRASH; rationals
have no infinity, so that branch is written out explicitly.  JavaScript
doubles are modelled as exact rationals. -/
def generateProvablyFairCrashPoint (seed : String) (roundNumber : Nat) : ℚ :=
  let randomValue : ℚ := (hashPrefix8 seed roundNumber : ℚ) / 2 ^ 32
  let houseEdge : ℚ := 99 / 100
  if randomValue = 0 then MAX_CRASH else min (houseEdge / randomValue) MAX_CRASH

/-- Modelled from the spec (section 4.1 Crash Point Generator), for comparison
with the source embedding: hash SHA-256 over seed concatenated with the decimal
string of the round number, read the first 8 hex digits as an unsigned integer,
normalize to r by dividing by 2^32, apply crashPoint = houseEdge / r with
houseEdge = 0.99, clamp to the ceiling 120, and treat r = 0 as the ceiling
rather than dividing by zero. -/
def generateSpec (seed : String) (roundNumber : Nat) : ℚ :=
  let digest := hexDigest (strBytes (seed ++ toString roundNumber))
  let r : ℚ := (parseHex (digest.take 8) : ℚ) / 2 ^ 32
  if r = 0 then 120 else min ((99 / 100) / r) 120

/-! ## Game and player state (src/index.js, connection handler state) -/

/-- The supported cryptocurrency symbols (keys of SUPPORTED_CRYPTOS). -/
def SUPPORTED_CRYPTOS : List String := ["BTC", "ETH", "USDT"]

/-- The per-player wallet object: the source initialises exactly the keys
BTC, ETH and USDT, so the embedding is a three-field record of balances. -/
structure Wallets where
  btc : ℚ
  eth : ℚ
  usdt : ℚ
deriving DecidableEq

/-- Balance lookup player.wallets[cryptoType].balance.  The default 0 for a
key outside the three is dead code: every access in the source is guarded by
the SUPPORTED_CRYPTOS check. -/
def getWallet (w : Wallets) (cryptoType : String) : ℚ :=
  if cryptoType = "BTC" then w.btc
  else if cryptoType = "ETH" then w.eth
  else if cryptoType = "USDT" then w.usdt
  else 0

/-- Balance store player.wallets[cryptoType].balance = v. -/
def setWallet (w : Wallets) (cryptoType : String) (v : ℚ) : Wallets :=
  if cryptoType = "BTC" then { w with btc := v }
  else if cryptoType = "ETH" then { w with eth := v }
  else if cryptoType = "USDT" then { w with usdt := v }
  else w

/-- The player.currentBet record set by the placeBet handler. -/
structure Bet where
  usdAmount : ℚ
  cryptoAmount : ℚ
  cryptoType : String
  priceAtTime : ℚ
  roundNumber : Nat
deriving DecidableEq

/-- The per-connection player record of the players map. -/
structure PlayerState where
  wallets : Wallets
  currentBet : Option Bet
  hasCashedOut : Bool
deriving DecidableEq

/-- The module-level game state read by the handlers: roundNumber,
currentMultiplier and isRoundActive. -/
structure GameState where
  roundNumber : Nat
  currentMultiplier : ℚ
  isRoundActive : Bool
deriving DecidableEq

/-- The player record created on connection: starter balances 0.001 BTC,
0.01 ETH, 100 USDT, no bet, not cashed out. -/
def initialPlayer : PlayerState :=
  { wallets := { btc := 1 / 1000, eth := 1 / 100, usdt := 100 },
    currentBet := none,
    hasCashedOut := false }

/-- Response emitted as the betPlaced event. -/
inductive BetResult
  | rejected (message : String)
  | accepted (balance : ℚ)
deriving DecidableEq

/-- Response of the cashedOut handler: cashedOutFail or cashedOutSuccess. -/
inductive CashoutResult
  | fail (message : String)
  | success (winningsUSD balance multiplier : ℚ) (cryptoType : String)
deriving DecidableEq

/-- Whether a bet response is the success acknowledgment. -/
def BetResult.isAccepted : BetResult → Bool
  | .accepted _ => true
  | .rejected _ => false

/-- Whether a cashout response is the success acknowledgment. -/
def CashoutResult.isSuccess : CashoutResult → Bool
  | .success _ _ _ _ => true
  | .fail _ => false

/-! ## The placeBet handler (src/index.js lines 394-497) -/

/-- Embedding of the placeBet socket handler body for an existing player.
Guards in source order: amount, supported asset, isRoundActive, then the
conversion usdAmount / priceAtTime (convertUSDToCrypto throws on a
non-positive price; the throw is caught by the handler's try/catch and
answered with a failure event before any mutation), then the balance check.
On acceptance the wallet is debited, currentBet is overwritten with the new
record carrying the current round number, and hasCashedOut is reset to false.
The priceAtTime argument is the price the handler read from the price cache;
prices are environment inputs of the embedding. -/
def placeBet (st : GameState) (player : PlayerState) (usdAmount : ℚ)
    (cryptoType : String) (priceAtTime : ℚ) : BetResult × PlayerState :=
  if usdAmount ≤ 0 then
    (.rejected "Invalid bet amount", player)
  else if ¬ SUPPORTED_CRYPTOS.contains cryptoType then
    (.rejected "Unsupported cryptocurrency", player)
  else if ¬ st.isRoundActive then
    (.rejected "No active round. Please wait for next round.", player)
  else if priceAtTime ≤ 0 then
    (.rejected ("Error processing bet: Invalid price for " ++ cryptoType), player)
  else
    let cryptoAmount := usdAmount / priceAtTime
    if getWallet player.wallets cryptoType < cryptoAmount then
      (.rejected ("Insufficient " ++ cryptoType ++ " balance"), player)
    else
      let wallets' := setWallet player.wallets cryptoType
        (getWallet player.wallets cryptoType - cryptoAmount)
      (.accepted (getWallet wallets' cryptoType),
       { wallets := wallets',
         currentBet := some ⟨usdAmount, cryptoAmount, cryptoType, priceAtTime,
                             st.roundNumber⟩,
         hasCashedOut := false })

/-! ## The cashedOut handler (src/index.js lines 500-551) -/

/-- Embedding of the cashedOut socket handler body for an existing player.
The single guard rejects when there is no current bet, the player has already
cashed out, or no round is active.  convertCryptoToUSD throws on a
non-positive stored price; the throw happens before any mutation and is
caught, yielding the failure event.  On success the winnings in asset units
are cryptoAmount * currentMultiplier, the USD figure is computed at the bet's
stored priceAtTime (no price is re-fetched: the function takes none), the
wallet is credited, hasCashedOut is set and currentBet is cleared. -/
def cashedOut (st : GameState) (player : PlayerState) : CashoutResult × PlayerState :=
  match player.currentBet with
  | none => (.fail "❌ Cannot cash out at this time.", player)
  | some bet =>
    if player.hasCashedOut then (.fail "❌ Cannot cash out at this time.", player)
    else if ¬ st.isRoundActive then (.fail "❌ Cannot cash out at this time.", player)
    else if bet.priceAtTime ≤ 0 then (.fail "Error processing cash out", player)
    else
      let winningsCrypto := bet.cryptoAmount * st.currentMultiplier
      let winningsUSD := winningsCrypto * bet.priceAtTime
      let wallets' := setWallet player.wallets bet.cryptoType
        (getWallet player.wallets bet.cryptoType + winningsCrypto)
      (.success winningsUSD (getWallet wallets' bet.cryptoType)
         st.currentMultiplier bet.cryptoType,
       { wallets := wallets', currentBet := none, hasCashedOut := true })

/-! ## The session registry (src/index.js, the players map) -/

/-- The players map keyed by socket id. -/
def Registry := String → Option PlayerState

/-- The placeBet handler at registry level: looks up players[socket.id]
(a missing player makes the handler body throw on property access, which the
try/catch answers with a failure event and no mutation) and stores the
updated player back under the same id. -/
def placeBetHandler (st : GameState) (reg : Registry) (id : String)
    (usdAmount : ℚ) (cryptoType : String) (priceAtTime : ℚ) :
    BetResult × Registry :=
  match reg id with
  | none => (.rejected "Error processing bet", reg)
  | some p =>
    let r := placeBet st p usdAmount cryptoType priceAtTime
    (r.1, fun j => if j = id then some r.2 else reg j)

/-- The cashedOut handler at registry level. -/
def cashedOutHandler (st : GameState) (reg : Registry) (id : String) :
    CashoutResult × Registry :=
  match reg id with
  | none => (.fail "Error processing cash out", reg)
  | some p =>
    let r := cashedOut st p
    (r.1, fun j => if j = id then some r.2 else reg j)

/-! ## Operation sequences on a single player -/

/-- One player action together with the game state and price environment it
runs in. -/
inductive Op
  | bet (st : GameState) (usdAmount : ℚ) (cryptoType : String) (priceAtTime : ℚ)
  | cashout (st : GameState)

/-- State reached after one operation. -/
def applyOp (p : PlayerState) : Op → PlayerState
  | .bet st usdAmount cryptoType priceAtTime =>
      (placeBet st p usdAmount cryptoType priceAtTime).2
  | .cashout st => (cashedOut st p).2

/-- State reached after a sequence of operations. -/
def runOps (p : PlayerState) (ops : List Op) : PlayerState :=
  ops.foldl applyOp p

/-- All three wallet balances are non-negative. -/
def nonNegWallets (w : Wallets) : Prop :=
  0 ≤ w.btc ∧ 0 ≤ w.eth ∧ 0 ≤ w.usdt

/-- Any stored bet has a non-negative asset amount. -/
def betNonNeg (p : PlayerState) : Prop :=
  ∀ b, p.currentBet = some b → 0 ≤ b.cryptoAmount

/-- Environment soundness of one operation: the controller's multiplier is
non-negative at a cashout (in the source it is always at least 1). -/
def envOk : Op → Prop
  | .bet _ _ _ _ => True
  | .cashout st => 0 ≤ st.currentMultiplier

instance : DecidablePred nonNegWallets := fun w => by
  unfold nonNegWallets; infer_instance

instance (p : PlayerState) : Decidable (betNonNeg p) := by
  unfold betNonNeg
  cases p.currentBet with
  | none => exact .isTrue (by simp)
  | some b => exact decidable_of_iff (0 ≤ b.cryptoAmount) (by simp)

instance (o : Op) : Decidable (envOk o) := by
  cases o with
  | bet st u c pr => exact .isTrue trivial
  | cashout st => exact inferInstanceAs (Decidable (0 ≤ st.currentMultiplier))

/-! ## Demonstration states shared by the concrete instances below -/

/-- A game state in the Active phase of round 1 at multiplier 1.85. -/
def stActive : GameState := ⟨1, 37 / 20, true⟩

/-- A game state of round 1 outside the Active phase (the countdown and
settling windows both have isRoundActive = false). -/
def stIdle : GameState := ⟨1, 1, false⟩

/-- The player state after a 10 USD BTC bet at price 60000 in stActive. -/
def pBet1 : PlayerState := (placeBet stActive initialPlayer 10 "BTC" 60000).2

/-- A two-player registry for frame-property instances. -/
def regDemo : Registry := fun j =>
  if j = "p1" then some initialPlayer
  else if j = "p2" then some initialPlayer
  else none

/-! ## Bounds on the hash prefix -/

/-- A hex digit value is below 16. -/
theorem hexCharVal_lt_16 (c : Char) : hexCharVal c < 16 := by
  unfold hexCharVal
  split_ifs <;> omega

/-- Folding hex digits from accumulator acc stays below (acc + 1) * 16 ^ length. -/
theorem foldlHex_lt (cs : List Char) : ∀ acc : Nat,
    cs.foldl (fun a c => 16 * a + hexCharVal c) acc < (acc + 1) * 16 ^ cs.length := by
  induction cs with
  | nil => intro acc; simp
  | cons c cs ih =>
    intro acc
    have h := ih (16 * acc + hexCharVal c)
    have hc : hexCharVal c < 16 := hexCharVal_lt_16 c
    have hstep : (16 * acc + hexCharVal c + 1) * 16 ^ cs.length ≤
        ((acc + 1) * 16) * 16 ^ cs.length := by
      have : 16 * acc + hexCharVal c + 1 ≤ (acc + 1) * 16 := by omega
      exact Nat.mul_le_mul_right _ this
    calc List.foldl (fun a c => 16 * a + hexCharVal c) (16 * acc + hexCharVal c) cs
        < (16 * acc + hexCharVal c + 1) * 16 ^ cs.length := h
      _ ≤ ((acc + 1) * 16) * 16 ^ cs.length := hstep
      _ = (acc + 1) * 16 ^ (cs.length + 1) := by ring

/-- parseHex of any character list is below 16 ^ length. -/
theorem parseHex_lt_pow (cs : List Char) : parseHex cs < 16 ^ cs.length := by
  have h := foldlHex_lt cs 0
  simpa [parseHex] using h

/-- The 8-hex-digit prefix read by the generator is below 2 ^ 32. -/
theorem hashPrefix8_lt (seed : String) (n : Nat) : hashPrefix8 seed n < 2 ^ 32 := by
  unfold hashPrefix8
  set cs := (hexDigest (strBytes (seed ++ toString n))).take 8 with hcs
  have h1 : parseHex cs < 16 ^ cs.length := parseHex_lt_pow cs
  have h2 : cs.length ≤ 8 := by
    rw [hcs]
    simp
  have h3 : (16 : Nat) ^ cs.length ≤ 16 ^ 8 := Nat.pow_le_pow_right (by norm_num) h2
  have : (16 : Nat) ^ 8 = 2 ^ 32 := by norm_num
  omega

end CrashGame

namespace CrashGame

/-! ## Wallet lookup and store lemmas -/

/-- A symbol the source supports is one of the three wallet keys. -/
theorem mem_supported {c : String} (h : SUPPORTED_CRYPTOS.contains c = true) :
    c = "BTC" ∨ c = "ETH" ∨ c = "USDT" := by
  simpa [SUPPORTED_CRYPTOS] using h

/-- Reading back the stored balance of a supported key. -/
theorem getWallet_setWallet_self {c : String} (w : Wallets) (v : ℚ)
    (h : SUPPORTED_CRYPTOS.contains c = true) :
    getWallet (setWallet w c v) c = v := by
  rcases mem_supported h with h1 | h1 | h1 <;> subst h1 <;> simp [getWallet, setWallet]

/-- Storing under one key leaves every other key's balance unchanged. -/
theorem getWallet_setWallet_other {c a : String} (w : Wallets) (v : ℚ)
    (h : a ≠ c) :
    getWallet (setWallet w c v) a = getWallet w a := by
  unfold getWallet setWallet
  split_ifs <;> simp_all

/-- Storing keeps all balances non-negative when the stored value is. -/
theorem nonNeg_setWallet {w : Wallets} {c : String} {v : ℚ}
    (hw : nonNegWallets w) (hv : 0 ≤ v) : nonNegWallets (setWallet w c v) := by
  unfold setWallet
  split_ifs <;> simp_all [nonNegWallets]

/-- A non-negative wallet record has a non-negative balance under any key. -/
theorem getWallet_nonneg {w : Wallets} (hw : nonNegWallets w) (a : String) :
    0 ≤ getWallet w a := by
  unfold getWallet
  obtain ⟨h1, h2, h3⟩ := hw
  split_ifs <;> first | assumption | simp

end CrashGame

namespace CrashGame

/-! ## Claims about the crash point generator -/

set_option maxRecDepth 40000

/-- C2 counterexample: at round 22 with the source's default seed the hash
prefix is 0xfebc7438 = 4273763384, randomValue exceeds 0.99, and the generated
crash point 0.99 / randomValue is strictly below 1.0 — the claim that the
output always lies in [1.0, MAX_CRASH] is false on the code. -/
theorem crashPoint_below_one_cex : generateProvablyFairCrashPoint GAME_SEED 22 < 1 := by
  have h : hashPrefix8 GAME_SEED 22 = 4273763384 := by decide
  simp only [generateProvablyFairCrashPoint, h]
  rw [if_neg (by norm_num)]
  have hx : (99 / 100 : ℚ) / ((4273763384 : ℚ) / 2 ^ 32) < 1 := by norm_num
  calc min ((99 / 100 : ℚ) / ((4273763384 : ℚ) / 2 ^ 32)) MAX_CRASH
      ≤ (99 / 100 : ℚ) / ((4273763384 : ℚ) / 2 ^ 32) := min_le_left _ _
    _ < 1 := hx

/-- C2 (amended): for every pair (roundNumber, seed) the generator's output
lies in the interval (0.99, MAX_CRASH]: it is clamped above at the configured
ceiling 120 and the r = 0 case yields the ceiling instead of dividing by zero,
but there is no lower clamp at 1.0 — the output exceeds the house edge 0.99
yet can fall below 1.0 whenever r > 0.99. -/
theorem crashPoint_range (seed : String) (n : Nat) :
    99 / 100 < generateProvablyFairCrashPoint seed n ∧
      generateProvablyFairCrashPoint seed n ≤ MAX_CRASH := by
  simp only [generateProvablyFairCrashPoint]
  by_cases h0 : ((hashPrefix8 seed n : ℚ) / 2 ^ 32) = 0
  · rw [if_pos h0]
    constructor
    · norm_num [MAX_CRASH]
    · exact le_rfl
  · rw [if_neg h0]
    have hnn : (0 : ℚ) ≤ (hashPrefix8 seed n : ℚ) / 2 ^ 32 := by positivity
    have hpos : (0 : ℚ) < (hashPrefix8 seed n : ℚ) / 2 ^ 32 :=
      lt_of_le_of_ne hnn (Ne.symm h0)
    have hlt1 : (hashPrefix8 seed n : ℚ) / 2 ^ 32 < 1 := by
      rw [div_lt_one (by positivity)]
      exact_mod_cast hashPrefix8_lt seed n
    constructor
    · rw [lt_min_iff]
      refine ⟨?_, by norm_num [MAX_CRASH]⟩
      rw [lt_div_iff₀ hpos]
      calc (99 / 100 : ℚ) * ((hashPrefix8 seed n : ℚ) / 2 ^ 32)
          < (99 / 100 : ℚ) * 1 := by
            exact mul_lt_mul_of_pos_left hlt1 (by norm_num)
        _ = 99 / 100 := by ring
    · exact min_le_right _ _

/-- C3: the generator is a pure deterministic function of the pair
(roundNumber, seed): the embedding computes SHA-256 over the seed concatenated
with the decimal string of the round number, reads the first 8 hex digits as
an unsigned integer, divides by 2^32 to get r, and returns 0.99 / r capped at
the ceiling, exactly as the spec describes (generateSpec is written from the
spec's words); and two calls with identical inputs return the identical value. -/
theorem generator_matches_spec (seed : String) (n : Nat) :
    generateProvablyFairCrashPoint seed n = generateSpec seed n ∧
      ∀ seed2 n2, seed2 = seed → n2 = n →
        generateProvablyFairCrashPoint seed2 n2 = generateProvablyFairCrashPoint seed n := by
  constructor
  · rfl
  · intro seed2 n2 hs hn
    rw [hs, hn]

/-- Witness for C3 at the source's default seed and round 1. -/
theorem generator_matches_spec_witness :
    generateProvablyFairCrashPoint GAME_SEED 1 = generateSpec GAME_SEED 1 ∧
      generateProvablyFairCrashPoint GAME_SEED 1 = generateProvablyFairCrashPoint GAME_SEED 1 := by
  have h := generator_matches_spec GAME_SEED 1
  exact ⟨h.1, h.2 GAME_SEED 1 rfl rfl⟩

end CrashGame

namespace CrashGame

/-! ## Claims about the placeBet and cashedOut handlers -/

/-- C8: every rejected placeBet or cashedOut is side-effect-free: whichever
guard produced the rejection (bad amount, unsupported asset, inactive round,
bad price, insufficient balance, no bet, already cashed out), the returned
player state is exactly the input state — no wallet, currentBet or
hasCashedOut mutation. -/
theorem rejection_side_effect_free (st : GameState) (p : PlayerState)
    (u : ℚ) (c : String) (pr : ℚ) (m m' : String) :
    ((placeBet st p u c pr).1 = BetResult.rejected m → (placeBet st p u c pr).2 = p) ∧
    ((cashedOut st p).1 = CashoutResult.fail m' → (cashedOut st p).2 = p) := by
  constructor
  · simp only [placeBet]
    split_ifs <;> simp
  · cases hcb : p.currentBet with
    | none => simp [cashedOut, hcb]
    | some b =>
      simp only [cashedOut, hcb]
      split_ifs <;> simp

/-- Witness for C8: a bet and a cashout attempted outside the active round
are rejected and leave the freshly connected player untouched. -/
theorem rejection_side_effect_free_witness :
    (placeBet stIdle initialPlayer 10 "BTC" 60000).2 = initialPlayer ∧
    (cashedOut stIdle initialPlayer).2 = initialPlayer := by
  have h := rejection_side_effect_free stIdle initialPlayer 10 "BTC" 60000
    "No active round. Please wait for next round." "❌ Cannot cash out at this time."
  refine ⟨h.1 ?_, h.2 ?_⟩
  · norm_num [placeBet, stIdle, SUPPORTED_CRYPTOS]
  · norm_num [cashedOut, initialPlayer]

/-- C1 (amended): the isRoundActive gate of placeBet works the other way
around from the claim: a bet is accepted only while isRoundActive is true
(the Active phase); while the round is inactive — which includes the whole
countdown bet window the spec describes — every bet is rejected and the
player state is unchanged. -/
theorem bet_requires_active_round (st : GameState) (p : PlayerState)
    (u : ℚ) (c : String) (pr : ℚ) :
    (st.isRoundActive = false →
      (placeBet st p u c pr).1.isAccepted = false ∧ (placeBet st p u c pr).2 = p) ∧
    (∀ b : ℚ, (placeBet st p u c pr).1 = BetResult.accepted b →
      st.isRoundActive = true) := by
  simp only [placeBet]
  split_ifs <;> simp_all [BetResult.isAccepted]

/-- Witness for C1 (amended): with the round inactive (countdown window) a
valid 10 USD BTC bet is rejected and the player is unchanged. -/
theorem bet_requires_active_round_witness :
    (placeBet stIdle initialPlayer 10 "BTC" 60000).1.isAccepted = false ∧
    (placeBet stIdle initialPlayer 10 "BTC" 60000).2 = initialPlayer :=
  (bet_requires_active_round stIdle initialPlayer 10 "BTC" 60000).1 rfl

/-- C1 counterexample: a bet attempted while the phase is Active is NOT
rejected: in stActive (isRoundActive = true) the 10 USD BTC bet of a fresh
player is accepted and the BTC balance changes from 0.001 to 0.00083333…,
contradicting the claim that such a bet is rejected with balances
unchanged. -/
theorem bet_during_active_accepted_cex :
    (placeBet stActive initialPlayer 10 "BTC" 60000).1 = BetResult.accepted (1 / 1200) ∧
    (placeBet stActive initialPlayer 10 "BTC" 60000).2.wallets.btc = 1 / 1200 ∧
    (1 : ℚ) / 1200 ≠ initialPlayer.wallets.btc := by
  refine ⟨?_, ?_, ?_⟩ <;>
    norm_num [placeBet, stActive, initialPlayer, getWallet, setWallet, SUPPORTED_CRYPTOS]

end CrashGame

namespace CrashGame

/-- C4 (amended): the placeBet handler has no AlreadyBet guard.  A further
placeBet from a player who already holds an active bet is accepted whenever
the generic validations pass (positive amount, supported asset, active round,
positive price, sufficient balance): the wallet is debited again by the full
converted amount and currentBet is overwritten with the new bet record.  The
player still holds at most one active bet afterwards only because currentBet
is a single slot that the new record replaces. -/
theorem secondBet_accepted_replaces (st : GameState) (p : PlayerState)
    (u : ℚ) (c : String) (pr : ℚ) (b : Bet) :
    p.currentBet = some b →
    0 < u → SUPPORTED_CRYPTOS.contains c = true → st.isRoundActive = true →
    0 < pr → u / pr ≤ getWallet p.wallets c →
    (placeBet st p u c pr).1 = BetResult.accepted (getWallet p.wallets c - u / pr) ∧
    (placeBet st p u c pr).2.currentBet = some ⟨u, u / pr, c, pr, st.roundNumber⟩ := by
  intro hb hu hc ha hpr hbal
  simp only [placeBet]
  rw [if_neg (not_le.mpr hu), if_neg (not_not_intro hc), if_neg (not_not_intro ha),
    if_neg (not_le.mpr hpr), if_neg (not_lt.mpr hbal)]
  exact ⟨by rw [getWallet_setWallet_self _ _ hc], rfl⟩

/-- Witness for C4 (amended): after pBet1 (which still holds its first bet)
a second 10 USD BTC bet is accepted; the balance is debited a second time. -/
theorem secondBet_accepted_replaces_witness :
    (placeBet stActive pBet1 10 "BTC" 60000).1 =
      BetResult.accepted (getWallet pBet1.wallets "BTC" - 10 / 60000) ∧
    (placeBet stActive pBet1 10 "BTC" 60000).2.currentBet =
      some ⟨10, 10 / 60000, "BTC", 60000, 1⟩ := by
  have h := secondBet_accepted_replaces stActive pBet1 10 "BTC" 60000
    ⟨10, 10 / 60000, "BTC", 60000, 1⟩
    (by norm_num [pBet1, placeBet, stActive, initialPlayer, getWallet, setWallet,
      SUPPORTED_CRYPTOS])
    (by norm_num) (by decide) rfl (by norm_num)
    (by norm_num [pBet1, placeBet, stActive, initialPlayer, getWallet, setWallet,
      SUPPORTED_CRYPTOS])
  exact h

/-- C4 counterexample: a player who already has an active bet in the current
round and places a second bet is NOT rejected: the second placeBet is
accepted and the BTC balance drops from 0.00083333… to 0.00066666…
(a second debit), refuting the claimed AlreadyBet rejection with no state
mutation. -/
theorem secondBet_not_rejected_cex :
    pBet1.currentBet = some ⟨10, 1 / 6000, "BTC", 60000, 1⟩ ∧
    (placeBet stActive pBet1 10 "BTC" 60000).1.isAccepted = true ∧
    (placeBet stActive pBet1 10 "BTC" 60000).2.wallets.btc = 1 / 1500 := by
  refine ⟨?_, ?_, ?_⟩ <;>
    norm_num [pBet1, placeBet, stActive, initialPlayer, getWallet, setWallet,
      SUPPORTED_CRYPTOS, BetResult.isAccepted]

/-- C9: accepting a placeBet from a player whose currentBet is some b debits
the wallet by the full new converted amount (no refund of b.cryptoAmount
appears anywhere: the new balance is exactly the old balance minus the new
debit), silently replaces the currentBet record, and resets hasCashedOut to
false — which re-enables a cashout in the same round even after a prior one,
since a subsequent cashedOut in any active state succeeds. -/
theorem rebet_double_debit (st : GameState) (p : PlayerState)
    (u : ℚ) (c : String) (pr : ℚ) (b : Bet) :
    p.currentBet = some b →
    0 < u → SUPPORTED_CRYPTOS.contains c = true → st.isRoundActive = true →
    0 < pr → u / pr ≤ getWallet p.wallets c →
    getWallet (placeBet st p u c pr).2.wallets c = getWallet p.wallets c - u / pr ∧
    (placeBet st p u c pr).2.currentBet = some ⟨u, u / pr, c, pr, st.roundNumber⟩ ∧
    (placeBet st p u c pr).2.hasCashedOut = false ∧
    (∀ st' : GameState, st'.isRoundActive = true →
      (cashedOut st' (placeBet st p u c pr).2).1.isSuccess = true) := by
  intro hb hu hc ha hpr hbal
  simp only [placeBet]
  rw [if_neg (not_le.mpr hu), if_neg (not_not_intro hc), if_neg (not_not_intro ha),
    if_neg (not_le.mpr hpr), if_neg (not_lt.mpr hbal)]
  refine ⟨by rw [getWallet_setWallet_self _ _ hc], rfl, rfl, ?_⟩
  intro st' ha'
  simp only [cashedOut]
  rw [if_neg (by simp), if_neg (by simp [ha']), if_neg (not_le.mpr hpr)]
  rfl

/-- Witness for C9 at the concrete double-bet state of round 1. -/
theorem rebet_double_debit_witness :
    getWallet (placeBet stActive pBet1 10 "BTC" 60000).2.wallets "BTC" =
      getWallet pBet1.wallets "BTC" - 10 / 60000 ∧
    (placeBet stActive pBet1 10 "BTC" 60000).2.hasCashedOut = false ∧
    (cashedOut stActive (placeBet stActive pBet1 10 "BTC" 60000).2).1.isSuccess = true := by
  have h := rebet_double_debit stActive pBet1 10 "BTC" 60000
    ⟨10, 10 / 60000, "BTC", 60000, 1⟩
    (by norm_num [pBet1, placeBet, stActive, initialPlayer, getWallet, setWallet,
      SUPPORTED_CRYPTOS])
    (by norm_num) (by decide) rfl (by norm_num)
    (by norm_num [pBet1, placeBet, stActive, initialPlayer, getWallet, setWallet,
      SUPPORTED_CRYPTOS])
  exact ⟨h.1, h.2.2.1, h.2.2.2 stActive rfl⟩

end CrashGame

namespace CrashGame

/-- C7: a successful cashOut credits exactly betAssetAmount * currentMultiplier
in asset units, and the reported USD winnings are that asset amount converted
at the bet's stored priceAtTime — the original locked-in price; the embedding
of the handler takes no price argument at all, so no re-fetched price can
enter the computation. -/
theorem cashout_winnings_formula (st : GameState) (p : PlayerState) (bet : Bet) :
    p.currentBet = some bet → p.hasCashedOut = false → st.isRoundActive = true →
    0 < bet.priceAtTime → SUPPORTED_CRYPTOS.contains bet.cryptoType = true →
    (cashedOut st p).1 = CashoutResult.success
        (bet.cryptoAmount * st.currentMultiplier * bet.priceAtTime)
        (getWallet p.wallets bet.cryptoType + bet.cryptoAmount * st.currentMultiplier)
        st.currentMultiplier bet.cryptoType ∧
    getWallet (cashedOut st p).2.wallets bet.cryptoType =
      getWallet p.wallets bet.cryptoType + bet.cryptoAmount * st.currentMultiplier := by
  intro hb hco ha hpr hc
  simp only [cashedOut, hb]
  rw [if_neg (by simp [hco]), if_neg (not_not_intro ha), if_neg (not_le.mpr hpr)]
  constructor
  · rw [getWallet_setWallet_self _ _ hc]
  · rw [getWallet_setWallet_self _ _ hc]

/-- Witness for C7, scenario 3 of the spec with exact rationals: the 10 USD
bet at price 60000 stored 10/60000 BTC; cashing out at multiplier 1.85 yields
winnings of 10/60000 * 1.85 BTC, a new balance of 0.001 - 10/60000 +
10/60000 * 1.85 = 137/120000 BTC (= 0.00114166…), and 18.50 USD at the
original price. -/
theorem cashout_winnings_formula_witness :
    (cashedOut stActive pBet1).1 =
      CashoutResult.success (37 / 2) (137 / 120000) (37 / 20) "BTC" := by
  have h := cashout_winnings_formula stActive pBet1 ⟨10, 10 / 60000, "BTC", 60000, 1⟩
    (by norm_num [pBet1, placeBet, stActive, initialPlayer, getWallet, setWallet,
      SUPPORTED_CRYPTOS])
    (by norm_num [pBet1, placeBet, stActive, initialPlayer, getWallet, setWallet,
      SUPPORTED_CRYPTOS])
    rfl (by norm_num) (by decide)
  rw [h.1]
  norm_num [pBet1, placeBet, stActive, initialPlayer, getWallet, setWallet,
    SUPPORTED_CRYPTOS]

/-- A cashout with no stored bet always fails. -/
theorem cashedOut_of_no_bet (st : GameState) (q : PlayerState)
    (h : q.currentBet = none) : (cashedOut st q).1.isSuccess = false := by
  simp [cashedOut, h, CashoutResult.isSuccess]

/-- A successful cashout clears the currentBet slot. -/
theorem cashedOut_success_clears (st : GameState) (p : PlayerState)
    (h : (cashedOut st p).1.isSuccess = true) :
    (cashedOut st p).2.currentBet = none := by
  cases hcb : p.currentBet with
  | none => simp [cashedOut, hcb, CashoutResult.isSuccess] at h
  | some b =>
    simp only [cashedOut, hcb] at h ⊢
    split_ifs at h ⊢ <;> simp_all [CashoutResult.isSuccess]

/-- C6 (amended): a cashout succeeds exactly when the round is Active, the
player has not cashed out since their last accepted bet, and an active bet
with a positive stored price is present; and after a successful cashout an
immediately repeated cashOut (with no intervening accepted bet) always fails,
because the bet slot is cleared.  However — contrary to the claim — a player
is NOT limited to one successful cashout per round: placing a fresh bet
resets hasCashedOut, and a second cashout in the same round then succeeds
(see the counterexample). -/
theorem cashout_gate (st : GameState) (p : PlayerState) :
    ((cashedOut st p).1.isSuccess = true ↔
      st.isRoundActive = true ∧ p.hasCashedOut = false ∧
        ∃ b, p.currentBet = some b ∧ 0 < b.priceAtTime) ∧
    ((cashedOut st p).1.isSuccess = true →
      ∀ st' : GameState, (cashedOut st' (cashedOut st p).2).1.isSuccess = false) := by
  constructor
  · cases hcb : p.currentBet with
    | none => simp [cashedOut, hcb, CashoutResult.isSuccess]
    | some b =>
      simp only [cashedOut, hcb]
      split_ifs with h1 h2 h3 <;>
        simp_all [CashoutResult.isSuccess, not_le, Bool.not_eq_true]
  · intro h st'
    exact cashedOut_of_no_bet st' _ (cashedOut_success_clears st p h)

/-- Witness for C6 (amended): after the successful cashout of pBet1, an
immediately repeated cashout in the same round fails. -/
theorem cashout_gate_witness :
    (cashedOut stActive (cashedOut stActive pBet1).2).1.isSuccess = false := by
  have h := cashout_gate stActive pBet1
  exact h.2 (by norm_num [cashedOut, pBet1, placeBet, stActive, initialPlayer,
    getWallet, setWallet, SUPPORTED_CRYPTOS, CashoutResult.isSuccess]) stActive

/-- C6 counterexample: two successful cashouts by the same player in the same
round (round 1, phase Active throughout): bet, cash out, bet again — the
second bet resets hasCashedOut — then the second cashout attempt of the round
succeeds instead of being rejected with AlreadyCashedOut. -/
theorem double_cashout_cex :
    (cashedOut stActive pBet1).1.isSuccess = true ∧
    (cashedOut stActive
      (placeBet stActive (cashedOut stActive pBet1).2 10 "BTC" 60000).2).1.isSuccess = true := by
  constructor <;>
    norm_num [cashedOut, placeBet, pBet1, stActive, initialPlayer, getWallet,
      setWallet, SUPPORTED_CRYPTOS, CashoutResult.isSuccess]

end CrashGame

namespace CrashGame

/-! ## Canonical case analysis of the two handlers -/

/-- Every placeBet either rejects and returns the player unchanged, or all
five guards pass and it returns the accepted pair with the debited wallet,
the new bet record and a cleared hasCashedOut flag. -/
theorem placeBet_cases (st : GameState) (p : PlayerState)
    (u : ℚ) (c : String) (pr : ℚ) :
    ((placeBet st p u c pr).1.isAccepted = false ∧ (placeBet st p u c pr).2 = p) ∨
    (0 < u ∧ SUPPORTED_CRYPTOS.contains c = true ∧ st.isRoundActive = true ∧
      0 < pr ∧ u / pr ≤ getWallet p.wallets c ∧
      placeBet st p u c pr =
        (BetResult.accepted (getWallet (setWallet p.wallets c
            (getWallet p.wallets c - u / pr)) c),
         { wallets := setWallet p.wallets c (getWallet p.wallets c - u / pr),
           currentBet := some ⟨u, u / pr, c, pr, st.roundNumber⟩,
           hasCashedOut := false })) := by
  simp only [placeBet]
  split_ifs with h1 h2 h3 h4 h5 <;>
    first
      | exact Or.inl ⟨rfl, rfl⟩
      | exact Or.inr ⟨lt_of_not_le h1, h2, h3, lt_of_not_le h4, le_of_not_lt h5, rfl⟩

/-- Every cashedOut either fails and returns the player unchanged, or the
guard passes and it returns the success pair with credited wallet, cleared
bet and hasCashedOut set. -/
theorem cashedOut_cases (st : GameState) (p : PlayerState) :
    ((cashedOut st p).1.isSuccess = false ∧ (cashedOut st p).2 = p) ∨
    (∃ b, p.currentBet = some b ∧ p.hasCashedOut = false ∧
      st.isRoundActive = true ∧ 0 < b.priceAtTime ∧
      cashedOut st p =
        (CashoutResult.success (b.cryptoAmount * st.currentMultiplier * b.priceAtTime)
           (getWallet (setWallet p.wallets b.cryptoType
              (getWallet p.wallets b.cryptoType +
                b.cryptoAmount * st.currentMultiplier)) b.cryptoType)
           st.currentMultiplier b.cryptoType,
         { wallets := setWallet p.wallets b.cryptoType
             (getWallet p.wallets b.cryptoType +
               b.cryptoAmount * st.currentMultiplier),
           currentBet := none, hasCashedOut := true })) := by
  cases hcb : p.currentBet with
  | none =>
    exact Or.inl ⟨by simp [cashedOut, hcb, CashoutResult.isSuccess],
                  by simp [cashedOut, hcb]⟩
  | some b =>
    simp only [cashedOut, hcb]
    split_ifs with h1 h2 h3 <;>
      first
        | exact Or.inl ⟨rfl, rfl⟩
        | exact Or.inr ⟨b, rfl, by simpa using h1, h2, lt_of_not_le h3, rfl⟩

/-- Storing under an unsupported key is the identity. -/
theorem setWallet_not_supported (w : Wallets) (v : ℚ) {c : String}
    (h : SUPPORTED_CRYPTOS.contains c = false) : setWallet w c v = w := by
  have h' : ¬(c = "BTC" ∨ c = "ETH" ∨ c = "USDT") := by
    intro hc
    rcases hc with hc | hc | hc <;> subst hc <;> simp [SUPPORTED_CRYPTOS] at h
  unfold setWallet
  rw [if_neg (fun hc => h' (Or.inl hc)),
      if_neg (fun hc => h' (Or.inr (Or.inl hc))),
      if_neg (fun hc => h' (Or.inr (Or.inr hc)))]

end CrashGame

namespace CrashGame

/-- C10: frame property of the two handlers.  Whatever the outcome, a
placeBet or cashedOut for player i touches no other player's session; and for
player i the wallet entries of every asset other than the one named by the
bet are unchanged (the handlers only ever write the one wallet key of that
player, plus the same player's currentBet / hasCashedOut fields). -/
theorem handler_frame (st : GameState) (reg : Registry) (i : String)
    (u : ℚ) (c : String) (pr : ℚ) :
    (∀ j, j ≠ i → (placeBetHandler st reg i u c pr).2 j = reg j) ∧
    (∀ j, j ≠ i → (cashedOutHandler st reg i).2 j = reg j) ∧
    (∀ p, reg i = some p →
      (placeBetHandler st reg i u c pr).2 i = some ((placeBet st p u c pr).2) ∧
      ∀ a, a ≠ c →
        getWallet (placeBet st p u c pr).2.wallets a = getWallet p.wallets a) ∧
    (∀ p b, reg i = some p → p.currentBet = some b →
      (cashedOutHandler st reg i).2 i = some ((cashedOut st p).2) ∧
      ∀ a, a ≠ b.cryptoType →
        getWallet (cashedOut st p).2.wallets a = getWallet p.wallets a) := by
  refine ⟨?_, ?_, ?_, ?_⟩
  · intro j hj
    unfold placeBetHandler
    cases hreg : reg i with
    | none => rfl
    | some p => simp [hj]
  · intro j hj
    unfold cashedOutHandler
    cases hreg : reg i with
    | none => rfl
    | some p => simp [hj]
  · intro p hreg
    refine ⟨by unfold placeBetHandler; rw [hreg]; simp, ?_⟩
    intro a ha
    rcases placeBet_cases st p u c pr with ⟨_, hsnd⟩ | ⟨_, _, _, _, _, heq⟩
    · rw [hsnd]
    · rw [heq]
      exact getWallet_setWallet_other _ _ ha
  · intro p b hreg hb
    refine ⟨by unfold cashedOutHandler; rw [hreg]; simp, ?_⟩
    intro a ha
    rcases cashedOut_cases st p with ⟨_, hsnd⟩ | ⟨b', hcb', _, _, _, heq⟩
    · rw [hsnd]
    · have hbb : b' = b := by
        rw [hb] at hcb'
        exact (Option.some.injEq _ _ ▸ hcb').symm
      subst hbb
      rw [heq]
      exact getWallet_setWallet_other _ _ ha

/-- Witness for C10: in the two-player demo registry, player p1's accepted
BTC bet leaves p2's session and p1's ETH balance untouched. -/
theorem handler_frame_witness :
    (placeBetHandler stActive regDemo "p1" 10 "BTC" 60000).2 "p2" = regDemo "p2" ∧
    getWallet (placeBet stActive initialPlayer 10 "BTC" 60000).2.wallets "ETH" =
      getWallet initialPlayer.wallets "ETH" := by
  have h := handler_frame stActive regDemo "p1" 10 "BTC" 60000
  exact ⟨h.1 "p2" (by decide),
         (h.2.2.1 initialPlayer (by simp [regDemo])).2 "ETH" (by decide)⟩

/-- One operation preserves non-negative balances and a non-negative stored
bet amount: an accepted debit cannot exceed the checked balance, and a
cashout credit is a product of two non-negative numbers. -/
theorem applyOp_preserves (p : PlayerState) (o : Op)
    (hw : nonNegWallets p.wallets) (hb : betNonNeg p) (he : envOk o) :
    nonNegWallets (applyOp p o).wallets ∧ betNonNeg (applyOp p o) := by
  cases o with
  | bet st u c pr =>
    simp only [applyOp]
    rcases placeBet_cases st p u c pr with ⟨_, hsnd⟩ | ⟨hu, hc, ha, hpr, hbal, heq⟩
    · rw [hsnd]; exact ⟨hw, hb⟩
    · rw [heq]
      refine ⟨nonNeg_setWallet hw (sub_nonneg.mpr hbal), ?_⟩
      intro b' hb'
      simp only [Option.some.injEq] at hb'
      rw [← hb']
      exact div_nonneg (le_of_lt hu) (le_of_lt hpr)
  | cashout st =>
    simp only [applyOp]
    rcases cashedOut_cases st p with ⟨_, hsnd⟩ | ⟨b, hcb, _, _, _, heq⟩
    · rw [hsnd]; exact ⟨hw, hb⟩
    · rw [heq]
      refine ⟨?_, ?_⟩
      · exact nonNeg_setWallet hw
          (add_nonneg (getWallet_nonneg hw _) (mul_nonneg (hb b hcb) he))
      · intro b' hb'
        simp at hb'

/-- A sequence of operations preserves non-negative balances and bet
amounts. -/
theorem runOps_preserves (ops : List Op) : ∀ p : PlayerState,
    nonNegWallets p.wallets → betNonNeg p → (∀ o ∈ ops, envOk o) →
    nonNegWallets (runOps p ops).wallets ∧ betNonNeg (runOps p ops) := by
  induction ops with
  | nil => intro p hw hb _; exact ⟨hw, hb⟩
  | cons o ops ih =>
    intro p hw hb he
    have h1 := applyOp_preserves p o hw hb (he o (List.mem_cons_self o ops))
    have h2 := ih (applyOp p o) h1.1 h1.2 (fun o' ho' => he o' (List.mem_cons_of_mem o ho'))
    simpa [runOps] using h2

/-- C5: along every sequence of placeBet / cashedOut operations on a single
player's session whose cashouts happen at a non-negative controller
multiplier, every wallet balance is ≥ 0 after every prefix of the sequence;
moreover a bet whose converted asset amount exceeds the current balance is
never accepted and leaves the state untouched, and a successful cashout only
credits: it never decreases any balance. -/
theorem wallet_balances_nonneg (p : PlayerState) (ops : List Op)
    (hw : nonNegWallets p.wallets) (hb : betNonNeg p)
    (he : ∀ o ∈ ops, envOk o) :
    (∀ k, nonNegWallets (runOps p (ops.take k)).wallets) ∧
    (∀ (st : GameState) (q : PlayerState) (u : ℚ) (c : String) (pr : ℚ),
      getWallet q.wallets c < u / pr →
        (placeBet st q u c pr).1.isAccepted = false ∧ (placeBet st q u c pr).2 = q) ∧
    (∀ (st : GameState) (q : PlayerState), 0 ≤ st.currentMultiplier → betNonNeg q →
      ∀ a, getWallet q.wallets a ≤ getWallet (cashedOut st q).2.wallets a) := by
  refine ⟨?_, ?_, ?_⟩
  · intro k
    exact (runOps_preserves (ops.take k) p hw hb
      (fun o ho => he o (List.take_subset k ops ho))).1
  · intro st q u c pr hlt
    rcases placeBet_cases st q u c pr with ⟨hacc, hsnd⟩ | ⟨_, _, _, _, hbal, _⟩
    · exact ⟨hacc, hsnd⟩
    · exact absurd hbal (not_le.mpr hlt)
  · intro st q hm hq a
    rcases cashedOut_cases st q with ⟨_, hsnd⟩ | ⟨b, hcb, _, _, _, heq⟩
    · rw [hsnd]
    · rw [heq]
      rcases hct : SUPPORTED_CRYPTOS.contains b.cryptoType with _ | _
      · rw [setWallet_not_supported _ _ hct]
      · by_cases hat : a = b.cryptoType
        · subst hat
          rw [getWallet_setWallet_self _ _ hct]
          exact le_add_of_nonneg_right (mul_nonneg (hq b hcb) hm)
        · rw [getWallet_setWallet_other _ _ hat]

/-- Witness for C5: the scenario-2/3 sequence — bet 10 USD of BTC at price
60000 then cash out at multiplier 1.85 — keeps all balances non-negative. -/
theorem wallet_balances_nonneg_witness :
    nonNegWallets (runOps initialPlayer
      ([Op.bet stActive 10 "BTC" 60000, Op.cashout stActive].take 2)).wallets := by
  have h := wallet_balances_nonneg initialPlayer
    [Op.bet stActive 10 "BTC" 60000, Op.cashout stActive]
    (by norm_num [initialPlayer, nonNegWallets])
    (by intro b hb'; simp [initialPlayer] at hb')
    ?he
  · exact h.1 2
  case he =>
    intro o ho
    simp only [List.mem_cons, List.not_mem_nil, or_false] at ho
    rcases ho with ho | ho
    · rw [ho]; trivial
    · rw [ho]; norm_num [envOk, stActive]

end CrashGame
